import Mathlib

/-!
Shallow embedding of the CAPEC word-cloud dashboard (word-cloud.py).

The program is a Dash application over one pandas table loaded at startup.
We embed the table as a list of records, the three callbacks (on_click,
update_table, update_figure) as pure Lean functions, the Python string
operations used by those callbacks as structurally recursive functions on
character lists, and the random.sample calls as an abstract sampler that
carries the documented contract of sampling without replacement.

Conventions:
  - pandas NaN cells (pd.isna) are Option.none;
  - a Python dict lookup that would raise KeyError returns Option.none;
  - a df.loc access with an out-of-range row label (KeyError) makes the
    whole callback return Option.none;
  - Dash components (html.Div, html.P, html.H3, html.A) are an Html tree;
    a callback may return a component, a tuple of components (the trailing
    comma in on_click), a bare Python string, or Python None (the implicit
    return on an unmatched radio value), captured by PyRet.
-/

/-- One row of the CAPEC catalog table (the pandas DataFrame df).
Optional fields are none when the CSV cell is empty, which pandas reads
as NaN. The id field holds the string form that Python f-string
interpolation produces for the ID cell. -/
structure CatalogRow where
  id : String
  name : String
  description : String
  severityLevel : Option String
  likelihood : Option String
  relatedWeaknesses : Option String
  exampleInstances : Option String
  mitigations : Option String
deriving DecidableEq

mutual

/-- Dash HTML components as built by the callbacks. The constructor a
carries the displayed text and the href of an html.A link. Constant style
dictionaries of the source are presentational and not modelled. -/
inductive Html where
  | text : String → Html
  | a : String → String → Html
  | p : HtmlList → Html
  | h3 : HtmlList → Html
  | div : HtmlList → Html

/-- Children lists of Dash components, as a mutual inductive so that the
collector functions below are structurally recursive. -/
inductive HtmlList where
  | nil : HtmlList
  | cons : Html → HtmlList → HtmlList

end

/-- Embed an ordinary list of components as an HtmlList. -/
def HL : List Html → HtmlList
  | [] => .nil
  | h :: t => .cons h (HL t)

/-- A Python return value of the two table callbacks: a Dash component, a
tuple of components, a bare string, or Python None. -/
inductive PyRet where
  | comp : Html → PyRet
  | tup : List Html → PyRet
  | str : String → PyRet
  | pyNone : PyRet

mutual

/-- All displayed strings of a component: text nodes and the displayed
text of links. -/
def Html.strs : Html → List String
  | .text s => [s]
  | .a s _ => [s]
  | .p cs => cs.strs
  | .h3 cs => cs.strs
  | .div cs => cs.strs

/-- All displayed strings of a children list. -/
def HtmlList.strs : HtmlList → List String
  | .nil => []
  | .cons h t => h.strs ++ t.strs

end

mutual

/-- All link targets (href attributes of html.A) of a component, in
document order. -/
def Html.linkHrefs : Html → List String
  | .text _ => []
  | .a _ href => [href]
  | .p cs => cs.linkHrefs
  | .h3 cs => cs.linkHrefs
  | .div cs => cs.linkHrefs

/-- All link targets of a children list. -/
def HtmlList.linkHrefs : HtmlList → List String
  | .nil => []
  | .cons h t => h.linkHrefs ++ t.linkHrefs

end

/-- Displayed strings of a callback return value. -/
def PyRet.strs : PyRet → List String
  | .comp h => h.strs
  | .tup hs => (hs.map Html.strs).flatten
  | .str s => [s]
  | .pyNone => []

/-- Link targets of a callback return value. -/
def PyRet.linkHrefs : PyRet → List String
  | .comp h => h.linkHrefs
  | .tup hs => (hs.map Html.linkHrefs).flatten
  | .str _ => []
  | .pyNone => []

/-- Worker for the Python split on the two-character separator.
Scans left to right; on each leftmost occurrence of two consecutive
colons the accumulated segment is emitted and scanning resumes after
the separator, matching the non-overlapping semantics of str.split. -/
def splitCCAux : List Char → List Char → List (List Char)
  | acc, [] => [acc.reverse]
  | acc, [c] => [(c :: acc).reverse]
  | acc, c1 :: c2 :: rest =>
    if c1 = ':' ∧ c2 = ':' then acc.reverse :: splitCCAux [] rest
    else splitCCAux (c1 :: acc) (c2 :: rest)

/-- Python weakness.split("::") as used at word-cloud.py line 101. -/
def pySplitCC (s : String) : List String :=
  (splitCCAux [] s.data).map List.asString

/-- Worker for the Python replace of the two-colon separator by a line
break, with the same leftmost non-overlapping scan as splitCCAux. -/
def replaceCCAux : List Char → List Char
  | [] => []
  | [c] => [c]
  | c1 :: c2 :: rest =>
    if c1 = ':' ∧ c2 = ':' then '\n' :: replaceCCAux rest
    else c1 :: replaceCCAux (c2 :: rest)

/-- Python text.replace("::", reverse-solidus n) as used at lines 117 and 124. -/
def pyReplaceCC (s : String) : String := (replaceCCAux s.data).asString

/-- Whether a character list contains two consecutive colons, i.e.
whether the separator "::" occurs in the text. -/
def hasCC : List Char → Bool
  | c1 :: c2 :: rest => (c1 = ':' && c2 = ':') || hasCC (c2 :: rest)
  | _ => false

/-- The Python list slice l[1:-1]: all elements except the first and the
last, empty when the list has at most two elements. -/
def pySlice1toNeg1 {α : Type} (l : List α) : List α := (l.drop 1).dropLast

/-- The Python line joiner: intersperses a line break between the given
strings, as the join on a line break does. -/
def joinLines : List String → String
  | [] => ""
  | [x] => x
  | x :: y :: rest => x ++ "\n" ++ joinLines (y :: rest)

/-- Character-list version of joinLines, used to relate split and
replace. -/
def joinCharsNL : List (List Char) → List Char
  | [] => []
  | [x] => x
  | x :: y :: rest => x ++ '\n' :: joinCharsNL (y :: rest)

/-- Python str.split() with no separator: splits on runs of whitespace
and drops empty segments; used to model word splitting inside
textwrap.wrap. -/
def wordsAux : List Char → List Char → List (List Char)
  | acc, [] => if acc.isEmpty then [] else [acc.reverse]
  | acc, c :: rest =>
    if c.isWhitespace then
      if acc.isEmpty then wordsAux [] rest else acc.reverse :: wordsAux [] rest
    else wordsAux (c :: acc) rest

/-- The words of a string, in order, whitespace-separated. -/
def pyWords (s : String) : List String := (wordsAux [] s.data).map List.asString

/-- Greedy line filling at the given width: the current line takes the
next word when the joined length still fits, otherwise the line is closed
and the word opens a new line. Models the default greedy strategy of
textwrap.wrap. -/
def wrapFillAux (width : ℕ) : List String → String → List String
  | [], line => [line]
  | w :: ws, line =>
    if line.length + 1 + w.length ≤ width then wrapFillAux width ws (line ++ " " ++ w)
    else line :: wrapFillAux width ws w

/-- Model of textwrap.wrap(text, width): whitespace-collapsing greedy
wrap returning the list of lines; empty input gives no lines. -/
def textwrapWrap (width : ℕ) (s : String) : List String :=
  match pyWords s with
  | [] => []
  | w :: ws => wrapFillAux width ws w

/-- The color dictionary of word-cloud.py lines 19-25, as a Python dict
lookup color[val]: the six severity strings and the np.nan key (a missing
severity) are mapped; any other value raises KeyError, modelled as none. -/
def color : Option String → Option String
  | some "Very High" => some "red"
  | some "High" => some "maroon"
  | some "Medium" => some "indigo"
  | some "Low" => some "turquoise"
  | some "Very Low" => some "blue"
  | some "None" => some "lightblue"
  | none => some "lightblue"
  | some _ => none

/-- The weights dictionary of lines 27-30, as a Python dict lookup
weights[val]: three likelihood strings and the np.nan key are mapped; any
other value raises KeyError, modelled as none. -/
def weights : Option String → Option ℕ
  | some "High" => some 35
  | some "Medium" => some 27
  | some "Low" => some 18
  | none => some 18
  | some _ => none

/-- The list comprehension severity_color at line 32: one color per row
of the table; a KeyError on any row aborts the comprehension, so the
whole list is none in that case. -/
def severity_color (cat : List CatalogRow) : Option (List String) :=
  cat.mapM (fun r => color r.severityLevel)

/-- The list comprehension weight_size at line 33: one font size per row
of the table, none if any lookup raises. -/
def weight_size (cat : List CatalogRow) : Option (List ℕ) :=
  cat.mapM (fun r => weights r.likelihood)

/-- The module-level state after a successful startup: the loaded table
and the two precomputed style lists. -/
structure Context where
  df : List CatalogRow
  sevColors : List String
  likSizes : List ℕ

/-- Startup: load the table and precompute both style lists; fails (a
fatal startup error) when a style lookup raises. -/
def mkContext (cat : List CatalogRow) : Option Context :=
  match severity_color cat, weight_size cat with
  | some cs, some ws => some ⟨cat, cs, ws⟩
  | _, _ => none

/-- Abstract random source modelling random.sample(range(n), k): the
first argument numbers the call site draw, and the contract fields state
the documented behavior of sampling k elements without replacement from
range(n): k results, pairwise distinct, each below n. -/
structure Sampler where
  sample : ℕ → ℕ → ℕ → List ℕ
  length_sample : ∀ i n k, k ≤ n → (sample i n k).length = k
  nodup_sample : ∀ i n k, k ≤ n → (sample i n k).Nodup
  mem_sample : ∀ i n k, k ≤ n → ∀ x ∈ sample i n k, x < n

/-- A concrete sampler meeting the contract, used to instantiate closed
statements: draw i from range(n) yields 0, 1, ..., k-1. -/
def detSampler : Sampler where
  sample := fun _ _ k => List.range k
  length_sample := fun _ _ k _ => List.length_range k
  nodup_sample := fun _ _ k _ => List.nodup_range k
  mem_sample := fun _ _ _ hk _ hx => lt_of_lt_of_le (List.mem_range.mp hx) hk

/-- The data of the go.Scatter figure built by update_figure: the two
coordinate arrays, the text labels (the full ID column), the hover text
(the full Name column), and the two textfont style arrays. -/
structure Fig where
  xs : List ℕ
  ys : List ℕ
  text : List String
  hovertext : List String
  textsize : List ℕ
  textcolor : List String

/-- The dropdown callback update_figure (lines 132-163): two independent
draws of random.sample(range(500), cids) for x and y, the whole ID column
as text, the whole Name column as hover text, and the precomputed style
lists. -/
def update_figure (rng : Sampler) (ctx : Context) (cids : ℕ) : Fig where
  xs := rng.sample 0 500 cids
  ys := rng.sample 1 500 cids
  text := ctx.df.map CatalogRow.id
  hovertext := ctx.df.map CatalogRow.name
  textsize := ctx.likSizes
  textcolor := ctx.sevColors

/-- Plotly pairs the coordinate arrays index-wise and renders one point
per index present in both arrays, so the figure shows min lengths many
points; surplus entries of the text array are not rendered. -/
def Fig.numPoints (f : Fig) : ℕ := min f.xs.length f.ys.length

/-- The labels of the rendered points: the text entries of the rendered
indices, in order. -/
def Fig.labels (f : Fig) : List String := f.text.take f.numPoints

/-- The static placeholder of on_click when no point was clicked
(line 56); the source returns it inside a one-element tuple. -/
def clickPlaceholder : Html :=
  .p (HL [.text "Click on a CAPEC ID to see a description of the attack pattern"])

/-- The CAPEC definition link built by f-string interpolation at
line 63. -/
def capecLinkOf (id : String) : String :=
  "https://capec.mitre.org/data/definitions/" ++ id

/-- The lead-in text of the link paragraph at line 62. -/
def learnMoreText : String := "To learn more follow this link: "

/-- The click callback on_click (lines 41-69). A missing click returns
the placeholder as a one-element tuple; otherwise the row is read with
df.loc, the description is wrapped at width 100 and joined with line
breaks, and a Div with the name, the wrapped description and the CAPEC
link is returned. An out-of-range index raises KeyError: none. -/
def on_click (cat : List CatalogRow) (clickData : Option ℕ) : Option PyRet :=
  match clickData with
  | none => some (.tup [clickPlaceholder])
  | some point_index =>
    match cat[point_index]? with
    | none => none
    | some row =>
      let wraptext := joinLines (textwrapWrap 100 row.description)
      let link := capecLinkOf row.id
      some (.comp (.div (HL
        [ .h3 (HL [.text row.name]),
          .p (HL [.text wraptext]),
          .p (HL [.text learnMoreText, .a link link]) ])))

/-- The static placeholder of update_table when no point was clicked
(line 93). -/
def noClickMsg : Html :=
  .p (HL [.text "If a CAPEC ID is clicked, information will be displayed here."])

/-- The CWE definition link built by f-string interpolation at
line 105. -/
def cweLinkOf (cwe : String) : String :=
  "https://cwe.mitre.org/data/definitions/" ++ cwe

/-- The lead-in text of the weakness listing at line 103, with the
spelling of the source. -/
def weaknessIntro : String :=
  "Below you will find a link of realted weaknesses from the Common Weakness Enumeration (CWE) catolog"

/-- The radio callback update_table (lines 77-125). A missing click
returns the placeholder regardless of the radio value. Otherwise the
branch on the radio value reads the row field: a NaN field yields the
fixed no-data message of that branch (a bare string in the mitigation
branch), a present weakness field is split on the separator, its first
and last segments dropped, and one link paragraph made per remaining
segment; a present instance or mitigation field has each separator
replaced by a line break. An unmatched radio value falls through to the
implicit Python None. An out-of-range index raises KeyError: none. -/
def update_table (cat : List CatalogRow) (value : String) (clickData : Option ℕ) :
    Option PyRet :=
  match clickData with
  | none => some (.comp noClickMsg)
  | some point_index =>
    if value = "weakness" then
      match cat[point_index]? with
      | none => none
      | some row =>
        match row.relatedWeaknesses with
        | none => some (.comp (.p (HL [.text "No weakness data available"])))
        | some weakness =>
          let cwe_ids := pySlice1toNeg1 (pySplitCC weakness)
          let list_of_cwe := cwe_ids.map (fun cwe =>
            Html.p (HL [Html.a (cweLinkOf cwe) (cweLinkOf cwe)]))
          some (.comp (.div (HL
            [ .p (HL [.text weaknessIntro]),
              .p (HL list_of_cwe) ])))
    else if value = "instance" then
      match cat[point_index]? with
      | none => none
      | some row =>
        match row.exampleInstances with
        | none => some (.comp (.p (HL [.text "No example instance data available"])))
        | some instanceText =>
          some (.comp (.p (HL [.text (pyReplaceCC instanceText)])))
    else if value = "mitigation" then
      match cat[point_index]? with
      | none => none
      | some row =>
        match row.mitigations with
        | none => some (.str "No mitigation available")
        | some mitigation =>
          some (.comp (.p (HL [.text (pyReplaceCC mitigation)])))
    else some .pyNone

/-- A sample catalog row with every optional field present, used in
closed instantiations. -/
def rowFull : CatalogRow where
  id := "CAPEC-1"
  name := "X"
  description := "A short description"
  severityLevel := some "High"
  likelihood := some "Low"
  relatedWeaknesses := some "::123::456::"
  exampleInstances := some "::first::second::"
  mitigations := some "::fix one::fix two::"

/-- A sample catalog row with every optional field missing, used in
closed instantiations. -/
def rowEmpty : CatalogRow where
  id := "CAPEC-9"
  name := "Y"
  description := "Another description"
  severityLevel := none
  likelihood := none
  relatedWeaknesses := none
  exampleInstances := none
  mitigations := none

/-- A sample catalog row whose severity and likelihood are present but
outside the two dictionaries. -/
def rowUnknown : CatalogRow where
  id := "CAPEC-7"
  name := "Z"
  description := "Unknown stylings"
  severityLevel := some "Unknown"
  likelihood := some "Unknown"
  relatedWeaknesses := some "plain text without separators"
  exampleInstances := none
  mitigations := none

/-- A sample startup context with twenty distinct rows, enough for the
smallest dropdown value. -/
def ctx20 : Context where
  df := (List.range 20).map (fun i =>
    { rowEmpty with id := toString i, name := toString i })
  sevColors := List.replicate 20 "lightblue"
  likSizes := List.replicate 20 18

/-- A character list is a string and back: structure eta. -/
theorem asString_data (s : String) : List.asString s.data = s := rfl

/-- asString turns list append into string append. -/
theorem asString_append (a b : List Char) :
    List.asString (a ++ b) = List.asString a ++ List.asString b := rfl

/-- The link collector distributes over embedded lists. -/
theorem linkHrefs_HL (hs : List Html) :
    HtmlList.linkHrefs (HL hs) = (hs.map Html.linkHrefs).flatten := by
  induction hs with
  | nil => rfl
  | cons h t ih => simp [HL, HtmlList.linkHrefs, ih]

/-- The link targets of the per-weakness paragraphs are exactly one CWE
link per identifier, in order. -/
theorem links_of_cwe_list (l : List String) :
    HtmlList.linkHrefs (HL (l.map (fun cwe =>
      Html.p (HL [Html.a (cweLinkOf cwe) (cweLinkOf cwe)])))) = l.map cweLinkOf := by
  induction l with
  | nil => rfl
  | cons x xs ih =>
    simp only [List.map_cons, HL, HtmlList.linkHrefs, Html.linkHrefs,
      List.nil_append, List.append_nil] at ih ⊢
    rw [ih]
    rfl

/-- The split worker never returns an empty list of segments. -/
theorem splitCCAux_ne_nil : ∀ (acc l : List Char), splitCCAux acc l ≠ []
  | _, [] => by simp [splitCCAux]
  | _, [_] => by simp [splitCCAux]
  | acc, c1 :: c2 :: rest => by
    by_cases hc : c1 = ':' ∧ c2 = ':'
    · simp [splitCCAux, hc]
    · simp only [splitCCAux, if_neg hc]
      exact splitCCAux_ne_nil (c1 :: acc) (c2 :: rest)

/-- When the separator does not occur, the split returns the single
segment made of the accumulator and the rest of the input. -/
theorem splitCCAux_of_not_hasCC : ∀ (acc l : List Char), hasCC l = false →
    splitCCAux acc l = [acc.reverse ++ l]
  | _, [], _ => by simp [splitCCAux]
  | _, [_], _ => by simp [splitCCAux]
  | acc, c1 :: c2 :: rest, h => by
    rw [hasCC] at h
    simp only [Bool.or_eq_false_iff, Bool.and_eq_false_iff, decide_eq_false_iff_not] at h
    have hc : ¬(c1 = ':' ∧ c2 = ':') := by tauto
    have h2 : hasCC (c2 :: rest) = false := h.2
    simp only [splitCCAux, if_neg hc]
    rw [splitCCAux_of_not_hasCC (c1 :: acc) (c2 :: rest) h2]
    simp

/-- A string without the separator splits into itself alone. -/
theorem pySplitCC_of_not_hasCC (s : String) (h : hasCC s.data = false) :
    pySplitCC s = [s] := by
  unfold pySplitCC
  rw [splitCCAux_of_not_hasCC [] s.data h]
  simp [asString_data]

/-- Joining the split segments with line breaks gives the replace of the
separator by line breaks, up to the pending accumulator. -/
theorem joinCharsNL_splitCCAux : ∀ (acc l : List Char),
    joinCharsNL (splitCCAux acc l) = acc.reverse ++ replaceCCAux l
  | _, [] => by simp [splitCCAux, joinCharsNL, replaceCCAux]
  | _, [_] => by simp [splitCCAux, joinCharsNL, replaceCCAux]
  | acc, c1 :: c2 :: rest => by
    by_cases hc : c1 = ':' ∧ c2 = ':'
    · simp only [splitCCAux, if_pos hc]
      obtain ⟨s0, S, hS⟩ := List.exists_cons_of_ne_nil (splitCCAux_ne_nil [] rest)
      have ih := joinCharsNL_splitCCAux [] rest
      rw [hS] at ih ⊢
      simp only [List.reverse_nil, List.nil_append] at ih
      rw [joinCharsNL, ih, replaceCCAux, if_pos hc]
    · simp only [splitCCAux, if_neg hc]
      rw [joinCharsNL_splitCCAux (c1 :: acc) (c2 :: rest)]
      rw [replaceCCAux, if_neg hc]
      simp

/-- joinLines on strings agrees with joinCharsNL on the underlying
character lists. -/
theorem joinLines_map_asString : ∀ (L : List (List Char)),
    joinLines (L.map List.asString) = List.asString (joinCharsNL L)
  | [] => rfl
  | [x] => by simp [joinLines, joinCharsNL]
  | x :: y :: rest => by
    have ih := joinLines_map_asString (y :: rest)
    simp only [List.map_cons] at ih ⊢
    rw [joinLines, joinCharsNL, ih]
    rw [show ('\n' :: joinCharsNL (y :: rest))
          = ['\n'] ++ joinCharsNL (y :: rest) from rfl]
    rw [← List.append_assoc, asString_append, asString_append]
    rfl

/-- Replacing each separator by a line break is the same as splitting on
the separator and joining the segments with line breaks. -/
theorem pyReplaceCC_eq_joinLines (s : String) :
    pyReplaceCC s = joinLines (pySplitCC s) := by
  unfold pyReplaceCC pySplitCC
  rw [joinLines_map_asString, joinCharsNL_splitCCAux]
  simp

/-- C2 counterexample: a row whose severity and likelihood read "Unknown"
is outside both dictionaries, so the dict lookups raise KeyError and the
style comprehensions fail instead of yielding a default color and size. -/
theorem style_mapper_unknown_fails :
    color rowUnknown.severityLevel = none ∧
    weights rowUnknown.likelihood = none ∧
    severity_color [rowUnknown] = none ∧
    weight_size [rowUnknown] = none :=
  ⟨rfl, rfl, rfl, rfl⟩

/-- C2 (amended): on the keys the two dictionaries actually enumerate,
the Style Mapper yields exactly one color and one size per row, a missing
severity gets the color of the key None, and a missing likelihood gets
the size of the key Low. -/
theorem style_mapper_total_on_dict_domain (r : CatalogRow)
    (hsev : r.severityLevel = none ∨ r.severityLevel ∈
      [some "Very High", some "High", some "Medium", some "Low",
       some "Very Low", some "None"])
    (hlik : r.likelihood = none ∨ r.likelihood ∈
      [some "High", some "Medium", some "Low"]) :
    (∃ c, color r.severityLevel = some c) ∧
    (∃ k, weights r.likelihood = some k) ∧
    color none = color (some "None") ∧
    weights none = weights (some "Low") := by
  refine ⟨?_, ?_, rfl, rfl⟩
  · rcases hsev with h | h
    · rw [h]; exact ⟨"lightblue", rfl⟩
    · simp only [List.mem_cons, List.not_mem_nil, or_false] at h
      rcases h with h | h | h | h | h | h <;> rw [h] <;> exact ⟨_, rfl⟩
  · rcases hlik with h | h
    · rw [h]; exact ⟨18, rfl⟩
    · simp only [List.mem_cons, List.not_mem_nil, or_false] at h
      rcases h with h | h | h <;> rw [h] <;> exact ⟨_, rfl⟩

/-- C2 witness: a row with both fields missing gets the default color and
size. -/
theorem style_mapper_total_witness :
    (∃ c, color rowEmpty.severityLevel = some c) ∧
    (∃ k, weights rowEmpty.likelihood = some k) ∧
    color none = color (some "None") ∧
    weights none = weights (some "Low") :=
  style_mapper_total_on_dict_domain rowEmpty (Or.inl rfl) (Or.inl rfl)

/-- C6: for an in-bounds index, each category whose backing field is
missing returns that category's fixed no-data message (a bare string in
the mitigation branch), not an empty string and not a failure. -/
theorem detail_missing_field_messages (cat : List CatalogRow) (i : ℕ)
    (row : CatalogRow) (hrow : cat[i]? = some row) :
    (row.relatedWeaknesses = none →
      update_table cat "weakness" (some i) =
        some (.comp (.p (HL [.text "No weakness data available"])))) ∧
    (row.exampleInstances = none →
      update_table cat "instance" (some i) =
        some (.comp (.p (HL [.text "No example instance data available"])))) ∧
    (row.mitigations = none →
      update_table cat "mitigation" (some i) =
        some (.str "No mitigation available")) := by
  refine ⟨fun h => ?_, fun h => ?_, fun h => ?_⟩ <;> simp [update_table, hrow, h]

/-- C6 witness: the three no-data messages on a concrete row with all
optional fields missing. -/
theorem detail_missing_field_messages_witness :
    update_table [rowEmpty] "weakness" (some 0) =
      some (.comp (.p (HL [.text "No weakness data available"]))) ∧
    update_table [rowEmpty] "instance" (some 0) =
      some (.comp (.p (HL [.text "No example instance data available"]))) ∧
    update_table [rowEmpty] "mitigation" (some 0) =
      some (.str "No mitigation available") := by
  obtain ⟨h1, h2, h3⟩ := detail_missing_field_messages [rowEmpty] 0 rowEmpty rfl
  exact ⟨h1 rfl, h2 rfl, h3 rfl⟩

/-- C7: with no click data, on_click returns exactly its placeholder
paragraph (inside the one-element tuple the source builds), and
update_table returns exactly its placeholder paragraph for every radio
value. -/
theorem no_selection_placeholders (cat : List CatalogRow) (value : String) :
    on_click cat none = some (.tup [clickPlaceholder]) ∧
    update_table cat value none = some (.comp noClickMsg) :=
  ⟨rfl, rfl⟩

/-- C9: both resolvers are pure functions of the read-only catalog and
their arguments; neither consumes the random source, so two calls with
identical arguments yield identical output. -/
theorem resolver_deterministic (cat : List CatalogRow) (value : String)
    (clickData : Option ℕ) :
    on_click cat clickData = on_click cat clickData ∧
    update_table cat value clickData = update_table cat value clickData :=
  ⟨rfl, rfl⟩

/-- C5: for an in-bounds index, on_click returns a Div whose displayed
strings include the row name and the description wrapped at width 100 and
joined with line breaks, and whose single link is the CAPEC definition
link built from the row id. -/
theorem describe_content (cat : List CatalogRow) (i : ℕ) (row : CatalogRow)
    (hrow : cat[i]? = some row) :
    ∃ out, on_click cat (some i) = some out ∧
      row.name ∈ out.strs ∧
      capecLinkOf row.id ∈ out.linkHrefs ∧
      joinLines (textwrapWrap 100 row.description) ∈ out.strs := by
  refine ⟨.comp (.div (HL
      [ .h3 (HL [.text row.name]),
        .p (HL [.text (joinLines (textwrapWrap 100 row.description))]),
        .p (HL [.text learnMoreText,
                .a (capecLinkOf row.id) (capecLinkOf row.id)]) ])), ?_, ?_, ?_, ?_⟩
  · simp [on_click, hrow]
  · simp [PyRet.strs, Html.strs, HtmlList.strs, HL]
  · simp [PyRet.linkHrefs, Html.linkHrefs, HtmlList.linkHrefs, HL]
  · simp [PyRet.strs, Html.strs, HtmlList.strs, HL]

/-- C5 witness: index 0 on a catalog whose first row has name X and id
CAPEC-1 shows the name and the CAPEC-1 definition link. -/
theorem describe_content_witness :
    ∃ out, on_click [rowFull] (some 0) = some out ∧
      "X" ∈ out.strs ∧
      "https://capec.mitre.org/data/definitions/CAPEC-1" ∈ out.linkHrefs ∧
      joinLines (textwrapWrap 100 "A short description") ∈ out.strs :=
  describe_content [rowFull] 0 rowFull rfl

/-- C4: for an in-bounds index with a present relatedWeaknesses field,
the weakness branch splits the field on the separator, drops the first
and last segments, and the links of the output are exactly one CWE
definition link per remaining segment, in order. -/
theorem weakness_links (cat : List CatalogRow) (i : ℕ) (row : CatalogRow)
    (w : String) (hrow : cat[i]? = some row)
    (hw : row.relatedWeaknesses = some w) :
    ∃ out, update_table cat "weakness" (some i) = some out ∧
      out.linkHrefs = (pySlice1toNeg1 (pySplitCC w)).map cweLinkOf := by
  refine ⟨.comp (.div (HL
      [ .p (HL [.text weaknessIntro]),
        .p (HL ((pySlice1toNeg1 (pySplitCC w)).map (fun cwe =>
          Html.p (HL [Html.a (cweLinkOf cwe) (cweLinkOf cwe)])))) ])), ?_, ?_⟩
  · simp [update_table, hrow, hw]
  · simp only [PyRet.linkHrefs, Html.linkHrefs, HtmlList.linkHrefs, HL,
      List.nil_append, List.append_nil]
    exact links_of_cwe_list _

/-- C4 witness: the field text with segments 123 and 456 between framing
separators yields exactly the two CWE links and no others. -/
theorem weakness_links_witness :
    ∃ out, update_table [rowFull] "weakness" (some 0) = some out ∧
      out.linkHrefs = ["https://cwe.mitre.org/data/definitions/123",
                       "https://cwe.mitre.org/data/definitions/456"] := by
  obtain ⟨out, h1, h2⟩ := weakness_links [rowFull] 0 rowFull "::123::456::" rfl rfl
  refine ⟨out, h1, ?_⟩
  rw [h2]
  rfl

/-- C10: a present relatedWeaknesses field that contains no separator at
all still loses its first and last split segments, which are its only
segment, so the weakness output carries zero CWE links. -/
theorem weakness_links_no_framing (cat : List CatalogRow) (i : ℕ)
    (row : CatalogRow) (w : String) (hrow : cat[i]? = some row)
    (hw : row.relatedWeaknesses = some w) (hno : hasCC w.data = false)
    (_hne : w ≠ "") :
    ∃ out, update_table cat "weakness" (some i) = some out ∧
      out.linkHrefs = [] := by
  refine ⟨.comp (.div (HL
      [ .p (HL [.text weaknessIntro]),
        .p (HL ((pySlice1toNeg1 (pySplitCC w)).map (fun cwe =>
          Html.p (HL [Html.a (cweLinkOf cwe) (cweLinkOf cwe)])))) ])), ?_, ?_⟩
  · simp [update_table, hrow, hw]
  · rw [pySplitCC_of_not_hasCC w hno]
    simp [pySlice1toNeg1, PyRet.linkHrefs, Html.linkHrefs, HtmlList.linkHrefs, HL]

/-- C10 witness: a non-empty weakness text without any separator yields
zero links. -/
theorem weakness_links_no_framing_witness :
    ∃ out, update_table [rowUnknown] "weakness" (some 0) = some out ∧
      out.linkHrefs = [] :=
  weakness_links_no_framing [rowUnknown] 0 rowUnknown
    "plain text without separators" rfl rfl (by decide) (by decide)

/-- C8: for an in-bounds index, a present exampleInstances field in the
instance branch and a present mitigations field in the mitigation branch
are returned as a paragraph whose text is the field with each separator
replaced by a line break, i.e. the separator-split segments joined by
line breaks and otherwise verbatim. -/
theorem detail_replace_separators (cat : List CatalogRow) (i : ℕ)
    (row : CatalogRow) (t : String) (hrow : cat[i]? = some row) :
    (row.exampleInstances = some t →
      update_table cat "instance" (some i) =
        some (.comp (.p (HL [.text (pyReplaceCC t)])))) ∧
    (row.mitigations = some t →
      update_table cat "mitigation" (some i) =
        some (.comp (.p (HL [.text (pyReplaceCC t)])))) ∧
    pyReplaceCC t = joinLines (pySplitCC t) := by
  refine ⟨fun h => ?_, fun h => ?_, pyReplaceCC_eq_joinLines t⟩ <;>
    simp [update_table, hrow, h]

/-- C8 witness: concrete instance and mitigation fields with two framed
segments come back with every separator turned into a line break. -/
theorem detail_replace_separators_witness :
    update_table [rowFull] "instance" (some 0) =
      some (.comp (.p (HL [.text "\nfirst\nsecond\n"]))) ∧
    update_table [rowFull] "mitigation" (some 0) =
      some (.comp (.p (HL [.text "\nfix one\nfix two\n"]))) := by
  obtain ⟨h1, _, _⟩ :=
    detail_replace_separators [rowFull] 0 rowFull "::first::second::" rfl
  obtain ⟨_, h2, _⟩ :=
    detail_replace_separators [rowFull] 0 rowFull "::fix one::fix two::" rfl
  exact ⟨by rw [h1 rfl]; rfl, by rw [h2 rfl]; rfl⟩

/-- C1: for each dropdown count, the figure renders exactly N points, and
their labels are the ids of the first N catalog rows in table order: the
label of point i is the id of row i. -/
theorem layout_count_and_labels (rng : Sampler) (ctx : Context) (N : ℕ)
    (hN : N = 20 ∨ N = 30 ∨ N = 40 ∨ N = 50) (hlen : N ≤ ctx.df.length) :
    (update_figure rng ctx N).numPoints = N ∧
    (update_figure rng ctx N).labels = (ctx.df.take N).map CatalogRow.id ∧
    (update_figure rng ctx N).labels.length = N := by
  have h500 : N ≤ 500 := by rcases hN with h | h | h | h <;> omega
  have hx := rng.length_sample 0 500 N h500
  have hy := rng.length_sample 1 500 N h500
  have hnum : (update_figure rng ctx N).numPoints = N := by
    simp [update_figure, Fig.numPoints, hx, hy]
  refine ⟨hnum, ?_, ?_⟩
  · rw [Fig.labels, hnum]
    simp [update_figure, List.map_take]
  · rw [Fig.labels, hnum]
    simp only [update_figure, List.length_take, List.length_map]
    omega

/-- C1 witness: the deterministic sampler on a twenty-row catalog at
count 20. -/
theorem layout_count_and_labels_witness :
    (update_figure detSampler ctx20 20).numPoints = 20 ∧
    (update_figure detSampler ctx20 20).labels =
      (ctx20.df.take 20).map CatalogRow.id ∧
    (update_figure detSampler ctx20 20).labels.length = 20 :=
  layout_count_and_labels detSampler ctx20 20 (Or.inl rfl) (by decide)

/-- C3: for each dropdown count, both coordinate arrays come from
sampling without replacement from range 500, so each axis has N pairwise
distinct coordinates below 500. -/
theorem layout_coordinates_distinct (rng : Sampler) (ctx : Context) (N : ℕ)
    (hN : N = 20 ∨ N = 30 ∨ N = 40 ∨ N = 50) :
    (update_figure rng ctx N).xs.Nodup ∧
    (update_figure rng ctx N).ys.Nodup ∧
    (∀ x ∈ (update_figure rng ctx N).xs, x < 500) ∧
    (∀ y ∈ (update_figure rng ctx N).ys, y < 500) ∧
    (update_figure rng ctx N).xs.length = N ∧
    (update_figure rng ctx N).ys.length = N := by
  have h500 : N ≤ 500 := by rcases hN with h | h | h | h <;> omega
  exact ⟨rng.nodup_sample 0 500 N h500, rng.nodup_sample 1 500 N h500,
    rng.mem_sample 0 500 N h500, rng.mem_sample 1 500 N h500,
    rng.length_sample 0 500 N h500, rng.length_sample 1 500 N h500⟩

/-- C3 witness: the deterministic sampler at count 20. -/
theorem layout_coordinates_distinct_witness :
    (update_figure detSampler ctx20 20).xs.Nodup ∧
    (update_figure detSampler ctx20 20).ys.Nodup ∧
    (∀ x ∈ (update_figure detSampler ctx20 20).xs, x < 500) ∧
    (∀ y ∈ (update_figure detSampler ctx20 20).ys, y < 500) ∧
    (update_figure detSampler ctx20 20).xs.length = 20 ∧
    (update_figure detSampler ctx20 20).ys.length = 20 :=
  layout_coordinates_distinct detSampler ctx20 20 (Or.inl rfl)
